import Mathlib

/-!
  # Verification of the parselbox sandbox controller

  A shallow embedding of the sandbox controller of this repository: the
  Deno/Pyodide MCP server in `src/parselbox/sandbox/sandbox.ts` together
  with its two tool-handler variants (`src/unnamed/part_000` and
  `src/unnamed/part_001`, both versions of `tools.ts`).

  Conventions of the embedding:

  * JavaScript `Map` objects and Python dicts become association lists,
    preserving iteration order.
  * Machine numbers (JS `number` used for timestamps, timeouts, list
    lengths) become `Int`/`Nat`; none of the verified claims depend on
    floating-point rounding.
  * Exceptions become `Option`/explicit outcome constructors; a JS error
    value is a record of its message together with the one class test the
    code performs (`instanceof Deno.errors.PermissionDenied`).
  * External collaborators (the Pyodide engine, the wall clock, the
    host filesystem) are oracles: records describing what the engine does
    on this run.  The handlers' own control flow is translated from the
    source.
-/

/-! ## Substring search

  The tool handlers classify failures with JavaScript's
  `String.prototype.includes`.  `seqPrefixOf`/`containsSeq` are the
  corresponding list-of-characters functions; `strContains s pat` is
  `s.includes(pat)`. -/

/-- Boolean prefix test on character lists. -/
def seqPrefixOf : List Char → List Char → Bool
  | [], _ => true
  | _ :: _, [] => false
  | a :: as, b :: bs => a == b && seqPrefixOf as bs

/-- Boolean substring test on character lists: some suffix of `s` starts
with `pat`. -/
def containsSeq (pat : List Char) : List Char → Bool
  | [] => seqPrefixOf pat []
  | c :: rest => seqPrefixOf pat (c :: rest) || containsSeq pat rest

/-- JavaScript `s.includes(pat)`. -/
def strContains (s pat : String) : Bool :=
  containsSeq pat.data s.data

/-! ## Error taxonomy and classification (`formatError`, part_001) -/

/-- The `ErrorCode` union type of `src/unnamed/part_001`. -/
inductive ErrorCode where
  | TIMEOUT
  | PERMISSION_DENIED
  | PYTHON_EXCEPTION
  | UNKNOWN
deriving DecidableEq, Repr

/-- A JavaScript error value as the handlers observe it: its message and
the single class test performed (`error instanceof Deno.errors.PermissionDenied`). -/
structure JsError where
  isDenoPermissionDenied : Bool
  msg : String
deriving DecidableEq, Repr

/-- The classifier `formatError` of `src/unnamed/part_001` (lines 29-51): classify a
failure by its class and message, permission checks first, then timeout,
then Python exception, else unknown. -/
def formatError (e : JsError) : ErrorCode × String :=
  if e.isDenoPermissionDenied || strContains e.msg ("Permission denied") then
    (ErrorCode.PERMISSION_DENIED, "Sandbox Permission Error: " ++ e.msg)
  else if strContains e.msg ("Execution timed out") then
    (ErrorCode.TIMEOUT, e.msg)
  else if strContains e.msg ("PythonError") || strContains e.msg ("Traceback") then
    (ErrorCode.PYTHON_EXCEPTION, e.msg)
  else
    (ErrorCode.UNKNOWN, e.msg)

/-- The test `isSystemError` of the part_001 catch branch: only timeouts and
permission failures mark the MCP result `isError`. -/
def isSystemError (c : ErrorCode) : Bool :=
  c == ErrorCode.TIMEOUT || c == ErrorCode.PERMISSION_DENIED

/-! ## VFS snapshots and the produced-files diff -/

/-- A VFS snapshot: absolute file path to last-modified timestamp, in the
iteration order of the `Map` built by `getVFSState`. -/
abbrev VFS := List (String × Int)

/-- Map lookup (JS `Map.get`) on a snapshot. -/
def vfsGet (m : VFS) (p : String) : Option Int :=
  (m.find? (fun e => e.1 == p)).map (fun e => e.2)

/-- The working directory of the sandbox session (`WORK_DIR` in
`sandbox.ts`). -/
def WORK_DIR : String := "/workspace"

/-- Model of `path.relative(root, p)` for the call sites that occur: every path
handed to it lies strictly under `root`, where the function strips the
`root ++ "/"` prefix. -/
def relativeTo (root p : String) : String :=
  if (root ++ "/").isPrefixOf p then p.drop (root.length + 1) else p

/-- The per-entry test of the produced-files loop in `executePythonTool`
(part_001 lines 302-308, part_000 lines 306-312):
`mtimeBefore === undefined || mtimeAfter > mtimeBefore`. -/
def isNewOrUpdated (before : VFS) (e : String × Int) : Bool :=
  match vfsGet before e.1 with
  | none => true
  | some tBefore => decide (tBefore < e.2)

/-- The produced-files loop of both `executePythonTool` variants: iterate
`filesAfter` in order, pushing the path (relative to the working
directory) whenever it is new or strictly newer. -/
def computeOutputFiles (workDir : String) (before after : VFS) : List String :=
  after.foldl
    (fun acc e =>
      if isNewOrUpdated before e then acc ++ [relativeTo workDir e.1] else acc)
    []

/-- Modelled from the spec: `diff(before, after)` reports a path if it is
absent from `before` or present with a strictly greater timestamp in
`after`, relative to `root`, in the iteration order of `after`;
deletions are never reported.  Stated as filter-then-map over `after` so
that it can be compared with the loop in the source. -/
def diffSpec (workDir : String) (before after : VFS) : List String :=
  (after.filter
    (fun e => (vfsGet before e.1).all (fun tBefore => decide (tBefore < e.2)))).map
    (fun e => relativeTo workDir e.1)

/-! ## The capability ledger: Deno permissions as the session sees them

  The ledger is the Deno permission state of the process.  The code only
  ever queries the three package-download net hosts (all granted or all
  revoked together, since the only revocation is the blanket
  `Deno.permissions.revoke({name:"net"})`) and the write permission on
  `PACKAGE_CACHE_DIR`; a `Session` records exactly those observables. -/

/-- The permission state a sandbox session can observe: whether
`PACKAGE_CACHE_DIR` is set in the environment (fixed for the process
lifetime), whether net access to the package-download domains is granted,
and whether write access to the package cache directory is granted. -/
structure Session where
  cacheDirSet : Bool
  netGranted : Bool
  cacheWriteGranted : Bool
deriving DecidableEq, Repr

/-- The `PackagePermissions` record of both tools.ts variants. -/
structure PackagePermissions where
  isNetworkDisabled : Bool
  isRuntimePackagesDisabled : Bool
deriving DecidableEq, Repr

/-- The permission query `readPackagePermissions` (part_001 lines 99-113, part_000 lines
69-83): network is disabled when none of the download domains is granted;
runtime packages are disabled when there is no cache directory or no
write permission on it. -/
def readPackagePermissions (s : Session) : PackagePermissions :=
  { isNetworkDisabled := !s.netGranted
    isRuntimePackagesDisabled := !(s.cacheDirSet && s.cacheWriteGranted) }

/-- The `configure` arguments the ledger and package path depend on.  The
`globals`/`mounts`/`tools`/`proxy_tools` steps never touch permissions;
their possible failure is carried by `ConfigureEnv.stepsError`. -/
structure ConfigArgs where
  packages : List String
  disable_net : Bool
  disable_runtime_packages : Bool
deriving DecidableEq, Repr

/-- Oracle for one `configure` call: whether one of steps (globals,
output_dir, mounts, tools/proxies) throws before the package step, and
whether the engine's `loadPackage` itself fails. -/
structure ConfigureEnv where
  stepsError : Option String
  loadError : Option String
deriving DecidableEq, Repr

/-- The structured content a `configure` call resolves with. -/
inductive ConfigResult where
  | ok
  | err (msg : String)
deriving DecidableEq, Repr

/-- The `configure` tool handler (part_001 lines 139-234, part_000
lines 139-236), restricted to the observables above: run the body under
try/catch, then — in the `finally` block, so also on failure — apply the
`disable_net` / `disable_runtime_packages` revocations to the session. -/
def configureSandboxTool (s : Session) (a : ConfigArgs) (env : ConfigureEnv) :
    ConfigResult × Session :=
  let body : ConfigResult :=
    match env.stepsError with
    | some m => ConfigResult.err m
    | none =>
      if a.packages.isEmpty then ConfigResult.ok
      else
        let perms := readPackagePermissions s
        if perms.isNetworkDisabled then
          ConfigResult.err ("Network access is required to install Python packages.")
        else if perms.isRuntimePackagesDisabled then
          ConfigResult.err ("Runtime package loading is disabled.")
        else
          match env.loadError with
          | some m => ConfigResult.err m
          | none => ConfigResult.ok
  let afterNet := if a.disable_net then { s with netGranted := false } else s
  let afterPkg :=
    if a.disable_runtime_packages then { afterNet with cacheWriteGranted := false }
    else afterNet
  (body, afterPkg)

/-- Fold a whole sequence of `configure` calls over a session, keeping
only the final permission state. -/
def runConfigures (s : Session) (calls : List (ConfigArgs × ConfigureEnv)) : Session :=
  calls.foldl (fun st c => (configureSandboxTool st c.1 c.2).2) s

/-! ## The value codec: `serialize_py` / `_robust_serialize`

  The Python helper embedded in `sandbox.ts` (PY_SETUP, lines 84-109)
  walks an arbitrary Python object graph.  Python values live on a heap
  and are compared by identity (`id(obj)`), so the embedding represents a
  value as a heap — a finite association list from object identities to
  object contents — plus a root identity.  A graph with a cycle is simply
  a heap whose references loop; sharing is two references to one
  identity.  Python's builtin `repr` (used only inside the two marker
  dicts) is abstracted by `reprOf`; no verified claim inspects the marker
  text.  The mutated `seen` set of the source — one set object shared by
  the entire traversal — is threaded through the recursion in evaluation
  order (Python evaluates the list/dict comprehensions left to right). -/

/-- A Python object identity (`id(obj)`). -/
abbrev ObjId := Nat

/-- The primitive leaves the serializer passes through unchanged:
`str, int, float, bool, None` (numbers modelled as `Int`). -/
inductive Prim where
  | pnone
  | pbool (b : Bool)
  | pint (n : Int)
  | pstr (s : String)
deriving DecidableEq, Repr

/-- One Python object: a primitive, a sequence-like container
(`list`/`tuple`/`set`/`frozenset`, children in iteration order), a
mapping (keys shown after `str(key)` coercion), a date/datetime (carrying
its `isoformat()` string), or anything else (carrying its `repr`). -/
inductive PyObj where
  | prim (p : Prim)
  | pylist (items : List ObjId)
  | pydict (fields : List (String × ObjId))
  | pydate (iso : String)
  | other (reprStr : String)
deriving DecidableEq, Repr

/-- A Python heap: object identities to objects. -/
abbrev Heap := List (ObjId × PyObj)

/-- Resolve an object identity on the heap. -/
def heapLookup (H : Heap) (i : ObjId) : Option PyObj :=
  (H.find? (fun e => e.1 == i)).map (fun e => e.2)

/-- Abstraction of Python's builtin `repr`, used only inside the
`circular_reference` / `not_serializable` markers. -/
def reprOf (H : Heap) (i : ObjId) : String :=
  match heapLookup H i with
  | some (PyObj.prim Prim.pnone) => "None"
  | some (PyObj.prim (Prim.pbool true)) => "True"
  | some (PyObj.prim (Prim.pbool false)) => "False"
  | some (PyObj.prim (Prim.pint n)) => toString n
  | some (PyObj.prim (Prim.pstr s)) => s
  | some (PyObj.pylist _) => "<sequence>"
  | some (PyObj.pydict _) => "<mapping>"
  | some (PyObj.pydate s) => s
  | some (PyObj.other r) => r
  | none => "<missing>"

/-- The JSON-like result tree (`Value` in the spec): primitives,
sequences, mappings, and the two marker dicts
`{"type": "circular_reference", "repr": r}` and
`{"type": "not_serializable", "repr": r}`, kept as constructors. -/
inductive JVal where
  | null
  | bool (b : Bool)
  | num (n : Int)
  | str (s : String)
  | arr (items : List JVal)
  | obj (fields : List (String × JVal))
  | circular (reprStr : String)
  | notSerializable (reprStr : String)
deriving Repr

/-- Primitive pass-through. -/
def primJ : Prim → JVal
  | Prim.pnone => JVal.null
  | Prim.pbool b => JVal.bool b
  | Prim.pint n => JVal.num n
  | Prim.pstr s => JVal.str s

/-- Serialize the items of a sequence left to right, threading the shared
`seen` set through: the state the first child returns is the state the
second child starts from, exactly as the mutated Python set behaves. -/
def serSeq (f : ObjId → List ObjId → Option (JVal × List ObjId)) :
    List ObjId → List ObjId → Option (List JVal × List ObjId)
  | [], seen => some ([], seen)
  | c :: cs, seen =>
    (f c seen).bind fun r1 =>
      (serSeq f cs r1.2).bind fun r2 => some (r1.1 :: r2.1, r2.2)

/-- Serialize the values of a mapping left to right (keys pass through
as their `str()` coercions), threading the shared `seen` set. -/
def serFields (f : ObjId → List ObjId → Option (JVal × List ObjId)) :
    List (String × ObjId) → List ObjId → Option (List (String × JVal) × List ObjId)
  | [], seen => some ([], seen)
  | (k, v) :: rest, seen =>
    (f v seen).bind fun r1 =>
      (serFields f rest r1.2).bind fun r2 => some ((k, r1.1) :: r2.1, r2.2)

/-- The serializer `_robust_serialize(obj, seen)` (sandbox.ts lines 85-106).  Faithful
points: the identity check against `seen` comes first and applies to
every object, primitives included; the identity is added to `seen`
before the branch on the object's type and is never removed, so `seen`
is global to the whole traversal, not scoped to the current path.  The
fuel argument only makes the recursion visibly well-founded; the
sufficiency theorem below shows the heap-size bound never runs out. -/
def robust_serialize (H : Heap) : Nat → ObjId → List ObjId → Option (JVal × List ObjId)
  | 0, _, _ => none
  | fuel + 1, i, seen =>
    if i ∈ seen then some (JVal.circular (reprOf H i), seen)
    else
      match heapLookup H i with
      | some (PyObj.prim p) => some (primJ p, i :: seen)
      | some (PyObj.pylist cs) =>
        (serSeq (fun c s => robust_serialize H fuel c s) cs (i :: seen)).map
          (fun r => (JVal.arr r.1, r.2))
      | some (PyObj.pydict kvs) =>
        (serFields (fun c s => robust_serialize H fuel c s) kvs (i :: seen)).map
          (fun r => (JVal.obj r.1, r.2))
      | some (PyObj.pydate s) => some (JVal.str s, i :: seen)
      | some (PyObj.other r) => some (JVal.notSerializable r, i :: seen)
      | none => some (JVal.notSerializable ("<missing>"), i :: seen)

/-- Fuel that the sufficiency theorem proves is always enough: one more
than the number of distinct identities on the heap. -/
def heapFuel (H : Heap) : Nat := ((H.map Prod.fst).dedup).length + 1

/-- Top-level `serialize_py(obj)` (sandbox.ts lines 84-109): run
`_robust_serialize` from a fresh empty `seen` set.  (The final
`json.dumps` rendering of the tree is not modelled.) -/
def serialize_py (H : Heap) (root : ObjId) : Option JVal :=
  (robust_serialize H (heapFuel H) root []).map Prod.fst

/-! ## The execution controller: `executePythonTool`

  Both handler variants race the engine's `runPythonAsync` against an
  optional timer.  The engine, the filesystem and the race are oracles in
  an `Engine1` record; the handlers' branching, the interrupt-buffer
  write (`Atomics.store(interruptBuffer, 0, 2)`), the produced-files
  diff and the shape of every resolved structured content are translated
  from the source. -/

/-- What the engine's run of the submitted code does: resolve with a
value, reject with an error, or never settle. -/
inductive RunResult where
  | val (v : JVal)
  | err (e : JsError)
  | diverges
deriving Repr

/-- Oracle for one `execute_python` call: the two VFS snapshots the
handler would take, the outcome of `loadPackagesFromImports` if invoked
(`none` = it resolves), the run's behaviour, and — when a timer is armed —
whether the run settles before the timer fires. -/
structure Engine1 where
  vfsBefore : VFS
  vfsAfter : VFS
  autoLoadError : Option JsError
  run : RunResult
  settlesBeforeTimeout : Bool

/-- The arguments of `execute_python`. -/
structure ExecArgs where
  code : String
  timeout : Option Int
  auto_load_packages : Bool
deriving Repr

/-- The timer rejects with `Error(\x7bExecution timed out after N seconds\x7d)`
(template literal of both variants). -/
def timeoutMsg (t : Int) : String :=
  "Execution timed out after " ++ toString t ++ " seconds"

/-- True when the timer, if armed, fires before the run settles: a
diverging run never settles; otherwise the race oracle decides. -/
def runNotDoneInTime (E : Engine1) : Bool :=
  match E.run with
  | RunResult.diverges => true
  | _ => !E.settlesBeforeTimeout

/-- The structured content of the part_001 variant
(`outputSchema`: is_success, result, files, error, error_code enum). -/
structure SC1 where
  is_success : Option Bool
  result : Option JVal
  files : Option (List String)
  error : Option String
  error_code : Option ErrorCode
deriving Repr

/-- How a part_001 `execute_python` call ends: an MCP result (structured
content plus the `isError` flag) or no response at all (an unguarded
diverging run). -/
inductive ExecOutcome1 where
  | resolved (sc : SC1) (isError : Bool)
  | noResponse
deriving Repr

/-- The observable trace of one part_001 call: its outcome, whether the
termination request `2` was stored into the interrupt buffer, and
whether `loadPackagesFromImports` was invoked. -/
structure ExecTrace1 where
  outcome : ExecOutcome1
  interruptStored : Bool
  loadInvoked : Bool
deriving Repr

/-- The settled (non-timeout) part of the part_001 handler: on a value,
diff the snapshots and resolve successfully; on an error, classify it
with `formatError` and resolve with `is_success = false` and its code;
on an unguarded diverging run, never resolve. -/
def finishRun1 (E : Engine1) (loadInvoked : Bool) : ExecTrace1 :=
  match E.run with
  | RunResult.diverges =>
    { outcome := ExecOutcome1.noResponse, interruptStored := false, loadInvoked }
  | RunResult.err e =>
    let fe := formatError e
    { outcome := ExecOutcome1.resolved
        { is_success := some false, result := none, files := none
          error := some fe.2, error_code := some fe.1 } (isSystemError fe.1)
      interruptStored := false, loadInvoked }
  | RunResult.val v =>
    { outcome := ExecOutcome1.resolved
        { is_success := some true, result := some v
          files := some (computeOutputFiles WORK_DIR E.vfsBefore E.vfsAfter)
          error := none, error_code := none } false
      interruptStored := false, loadInvoked }

/-- The `execute_python` handler of `src/unnamed/part_001` (lines
257-337).  Everything is inside the try: a failing auto-load is caught
and classified; a timer is armed only for `timeout > 0`; when it fires
first the handler stores `2` into the interrupt buffer and rejects with
the timeout message, which the catch classifies.  No permission query
guards the auto-load — the handler never calls
`readPackagePermissions`, which is why this model takes no `Session`. -/
def executePython_p1 (E : Engine1) (a : ExecArgs) : ExecTrace1 :=
  match (if a.auto_load_packages then E.autoLoadError else none) with
  | some e =>
    let fe := formatError e
    { outcome := ExecOutcome1.resolved
        { is_success := some false, result := none, files := none
          error := some fe.2, error_code := some fe.1 } (isSystemError fe.1)
      interruptStored := false, loadInvoked := a.auto_load_packages }
  | none =>
    match a.timeout with
    | some t =>
      if decide (0 < t) && runNotDoneInTime E then
        let fe := formatError { isDenoPermissionDenied := false, msg := timeoutMsg t }
        { outcome := ExecOutcome1.resolved
            { is_success := some false, result := none, files := none
              error := some fe.2, error_code := some fe.1 } (isSystemError fe.1)
          interruptStored := true, loadInvoked := a.auto_load_packages }
      else finishRun1 E a.auto_load_packages
    | none => finishRun1 E a.auto_load_packages

/-- The structured content of the part_000 variant.  Its `outputSchema`
declares only `is_success`, `result`, `error`, `files`; the handler's
success branch nevertheless also sets an `error_code` field — to the
submitted source code string. -/
structure SC0 where
  is_success : Option Bool
  result : Option JVal
  files : Option (List String)
  error : Option String
  error_code : Option String
deriving Repr

/-- How a part_000 `execute_python` call ends: an MCP result, no response,
or an exception escaping the handler (possible because the auto-load
runs outside the try/catch). -/
inductive ExecOutcome0 where
  | resolved (sc : SC0) (isError : Bool)
  | noResponse
  | threw (msg : String)
deriving Repr

/-- The observable trace of one part_000 call. -/
structure ExecTrace0 where
  outcome : ExecOutcome0
  interruptStored : Bool
  loadInvoked : Bool
deriving Repr

/-- The settled (non-timeout) part of the part_000 handler: the success
branch resolves with the produced-files message in `error` and the
submitted code string in `error_code`; the catch resolves with only an
`error` message — no `is_success`, no `error_code`. -/
def finishRun0 (E : Engine1) (a : ExecArgs) : ExecTrace0 :=
  match E.run with
  | RunResult.diverges =>
    { outcome := ExecOutcome0.noResponse, interruptStored := false
      loadInvoked := a.auto_load_packages }
  | RunResult.err e =>
    { outcome := ExecOutcome0.resolved
        { is_success := none, result := none, files := none
          error := some e.msg, error_code := none } true
      interruptStored := false, loadInvoked := a.auto_load_packages }
  | RunResult.val v =>
    let files := computeOutputFiles WORK_DIR E.vfsBefore E.vfsAfter
    let message :=
      if decide (0 < files.length) then
        "\nGenerated " ++ toString files.length ++ " file(s)."
      else ""
    { outcome := ExecOutcome0.resolved
        { is_success := some true, result := some v, files := some files
          error := some message, error_code := some a.code } false
      interruptStored := false, loadInvoked := a.auto_load_packages }

/-- The `execute_python` handler of `src/unnamed/part_000` (lines
264-349).  The snapshot and the auto-load run before the try block, so a
failing auto-load escapes the handler; the timeout path stores `2` into
the interrupt buffer and is then caught by the catch branch, which
resolves with only the error message. -/
def executePython_p0 (E : Engine1) (a : ExecArgs) : ExecTrace0 :=
  match (if a.auto_load_packages then E.autoLoadError else none) with
  | some e =>
    { outcome := ExecOutcome0.threw e.msg, interruptStored := false
      loadInvoked := a.auto_load_packages }
  | none =>
    match a.timeout with
    | some t =>
      if decide (0 < t) && runNotDoneInTime E then
        { outcome := ExecOutcome0.resolved
            { is_success := none, result := none, files := none
              error := some (timeoutMsg t), error_code := none } true
          interruptStored := true, loadInvoked := a.auto_load_packages }
      else finishRun0 E a
    | none => finishRun0 E a

/-! ## The RPC bridge: `_DynamicProxy`

  The Python class in PY_SETUP (sandbox.ts lines 44-60).  `__getattr__`
  builds a fresh proxy from a new list (`self._path_parts + [name]`) and
  performs no host call; `__call__` performs exactly one
  `_host_rpc_call` with the accumulated path.  Each operation is paired
  with the list of RPC envelopes its body sends, so "no RPC during
  attribute access" and "exactly one envelope on call" are statements
  about the model, not conventions outside it. -/

/-- The payload dict handed to `_host_rpc_call`. -/
structure Envelope where
  type : String
  name : String
  path : List String
  args : List JVal
  kwargs : List (String × JVal)
deriving Repr

/-- The proxy value: the registered root name and the accumulated
attribute path. -/
structure DynamicProxy where
  rootName : String
  pathParts : List String
deriving DecidableEq, Repr

/-- The root proxy `_DynamicProxy(name)` as registered by `configure` for each
`proxy_tools` entry: empty path (`path_parts or []`). -/
def mkDynamicProxy (root : String) : DynamicProxy :=
  { rootName := root, pathParts := [] }

/-- Attribute access (`__getattr__`): a new proxy extended by one segment, and the envelopes
the body sends — none. -/
def DynamicProxy.getattr (p : DynamicProxy) (attr : String) :
    DynamicProxy × List Envelope :=
  ({ rootName := p.rootName, pathParts := p.pathParts ++ [attr] }, [])

/-- Proxy call (`__call__`): build the `proxy_callback` envelope from the accumulated
path and send exactly it. -/
def DynamicProxy.call (p : DynamicProxy) (args : List JVal)
    (kwargs : List (String × JVal)) : Envelope × List Envelope :=
  let env : Envelope :=
    { type := "proxy_callback", name := p.rootName, path := p.pathParts
      args := args, kwargs := kwargs }
  (env, [env])

/-- A chain of attribute accesses applied in order, accumulating every
envelope any access sends. -/
def chainAccess : DynamicProxy → List String → DynamicProxy × List Envelope
  | p, [] => (p, [])
  | p, attr :: rest =>
    let step := DynamicProxy.getattr p attr
    let tail := chainAccess step.1 rest
    (tail.1, step.2 ++ tail.2)

/-! ## The part_000 filesystem walker

  `listFilesRecursive` of `src/unnamed/part_000` (lines 23-38) filters

    `if (entry === "." || entry === ".." || entry === "mnt") continue;`

  inside the recursive `scan`, so the name test applies at every depth,
  not only at the working directory's mount root.  (The part_001 variant
  filters only "." and "..".)  The virtual filesystem is a finite tree;
  `stat` never fails in the model, so the snapshot records every listed
  file with its mtime. -/

/-- A VFS subtree: a regular file with its mtime, or a directory with
named entries in `readdir` order. -/
inductive FSNode where
  | file (mtime : Int)
  | dir (entries : List (String × FSNode))
deriving Repr

mutual

/-- The walker `listFilesRecursive` of part_000, from a directory path and the
subtree rooted there.  Called on a file it lists nothing (the source
only ever calls it on directories). -/
def listFilesRecursive0 : String → FSNode → List String
  | _, FSNode.file _ => []
  | p, FSNode.dir entries => scanEntries0 p entries

/-- One `readdir` loop of `scan`: skip ".", ".." and "mnt", push file
paths, recurse into directories, in entry order. -/
def scanEntries0 : String → List (String × FSNode) → List String
  | _, [] => []
  | p, (entry, node) :: rest =>
    (if entry == "." || entry == ".." || entry == "mnt" then []
     else
       match node with
       | FSNode.file _ => [p ++ "/" ++ entry]
       | FSNode.dir _ => listFilesRecursive0 (p ++ "/" ++ entry) node) ++
    scanEntries0 p rest

end

mutual

/-- The snapshot `getVFSState` of part_000 (lines 40-56) over the tree model: the
listed files paired with their mtimes, in listing order.  (The source
lists paths and then stats each one; in the tree model the stat of a
listed file is the mtime stored at it, and never fails.) -/
def getVFSState0 : String → FSNode → List (String × Int)
  | _, FSNode.file _ => []
  | p, FSNode.dir entries => vfsEntries0 p entries

/-- The entry loop of `getVFSState0`, mirroring `scanEntries0`. -/
def vfsEntries0 : String → List (String × FSNode) → List (String × Int)
  | _, [] => []
  | p, (entry, node) :: rest =>
    (if entry == "." || entry == ".." || entry == "mnt" then []
     else
       match node with
       | FSNode.file m => [(p ++ "/" ++ entry, m)]
       | FSNode.dir _ => getVFSState0 (p ++ "/" ++ entry) node) ++
    vfsEntries0 p rest

end

mutual

/-- Remove every entry named "mnt", at every depth, from a tree.  Used
to state that the part_000 walker never sees inside such entries. -/
def pruneMnt : FSNode → FSNode
  | FSNode.file m => FSNode.file m
  | FSNode.dir entries => FSNode.dir (pruneEntries entries)

/-- Entry-list part of `pruneMnt`. -/
def pruneEntries : List (String × FSNode) → List (String × FSNode)
  | [] => []
  | (entry, node) :: rest =>
    if entry == "mnt" then pruneEntries rest
    else (entry, pruneMnt node) :: pruneEntries rest

end

/-! ## Helper lemmas -/

/-- An accumulate-if-push `foldl` is the filter of the list mapped, after
the accumulator. -/
theorem foldl_push_filter {α β : Type} (p : α → Bool) (f : α → β) :
    ∀ (l : List α) (acc : List β),
      l.foldl (fun acc e => if p e then acc ++ [f e] else acc) acc =
        acc ++ (l.filter p).map f := by
  intro l
  induction l with
  | nil => intro acc; simp
  | cons e rest ih =>
    intro acc
    by_cases h : p e <;> simp [h, ih]

/-- A chain of `__getattr__` steps sends no envelope and only appends the
accessed names to the path, in order. -/
theorem chainAccess_spec : ∀ (segs : List String) (p : DynamicProxy),
    chainAccess p segs =
      ({ rootName := p.rootName, pathParts := p.pathParts ++ segs }, []) := by
  intro segs
  induction segs with
  | nil => intro p; simp [chainAccess]
  | cons a rest ih =>
    intro p
    simp [chainAccess, DynamicProxy.getattr, ih]

/-! ## Claims C6 and C8 -/

/-- Claim C6: for every pair of snapshots, the produced-files loop of
`executePythonTool` reports exactly the paths that are absent from the
`before` snapshot or carry a strictly greater timestamp in `after`,
relative to the working directory, in the iteration order of `after` —
i.e. the loop equals the spec's filter-then-map characterisation of
`diff`.  Deletions (entries only in `before`) are never reported, since
the output is drawn from `after` alone. -/
theorem C6_diff_characterization :
    ∀ (workDir : String) (before after : VFS),
      computeOutputFiles workDir before after = diffSpec workDir before after := by
  intro wd before after
  unfold computeOutputFiles diffSpec
  rw [foldl_push_filter (isNewOrUpdated before) (fun e => relativeTo wd e.1)]
  rw [List.nil_append]
  congr 1
  apply List.filter_congr
  intro e _
  unfold isNewOrUpdated
  cases h : vfsGet before e.1 <;> simp [h]

/-- Claim C8: for every registered proxy and chain of attribute accesses,
each access returns a new proxy extended by exactly the accessed segment
and sends no RPC envelope; calling the resulting proxy sends exactly one
envelope, of kind `proxy_callback`, whose path is the accumulated
segment sequence and whose args/kwargs are the call's arguments. -/
theorem C8_proxy_chaining :
    ∀ (root : String) (segs : List String) (args : List JVal)
      (kwargs : List (String × JVal)),
      (∀ (q : DynamicProxy) (attr : String),
        DynamicProxy.getattr q attr =
          ({ rootName := q.rootName, pathParts := q.pathParts ++ [attr] }, [])) ∧
      (chainAccess (mkDynamicProxy root) segs).2 = [] ∧
      (chainAccess (mkDynamicProxy root) segs).1 =
        { rootName := root, pathParts := segs } ∧
      (DynamicProxy.call (chainAccess (mkDynamicProxy root) segs).1 args kwargs).2 =
        [{ type := "proxy_callback", name := root, path := segs
           args := args, kwargs := kwargs }] := by
  intro root segs args kwargs
  have h := chainAccess_spec segs (mkDynamicProxy root)
  refine ⟨fun q attr => rfl, ?_, ?_, ?_⟩
  · rw [h]
  · rw [h]; simp [mkDynamicProxy]
  · rw [h]; simp [mkDynamicProxy, DynamicProxy.call]

/-! ## Claim C10: the part_000 walker skips "mnt" at every depth -/

mutual

/-- Pruning every "mnt" entry, at every depth, does not change what the
part_000 walker lists: the walker never looks inside such entries. -/
theorem listFiles_pruneMnt : ∀ (p : String) (t : FSNode),
    listFilesRecursive0 p (pruneMnt t) = listFilesRecursive0 p t
  | _, FSNode.file _ => by simp [pruneMnt, listFilesRecursive0]
  | p, FSNode.dir es => by
    simp only [pruneMnt, listFilesRecursive0]
    exact scanEntries_pruneMnt p es

/-- Entry-list version of `listFiles_pruneMnt`. -/
theorem scanEntries_pruneMnt : ∀ (p : String) (es : List (String × FSNode)),
    scanEntries0 p (pruneEntries es) = scanEntries0 p es
  | _, [] => by simp [pruneEntries]
  | p, (entry, node) :: rest => by
    by_cases hm : (entry == "mnt") = true
    · rw [show pruneEntries ((entry, node) :: rest) = pruneEntries rest from by
        simp [pruneEntries, hm]]
      rw [scanEntries_pruneMnt p rest]
      simp [scanEntries0, hm]
    · rw [show pruneEntries ((entry, node) :: rest) =
          (entry, pruneMnt node) :: pruneEntries rest from by
        simp [pruneEntries, hm]]
      simp only [scanEntries0]
      rw [scanEntries_pruneMnt p rest]
      congr 1
      by_cases hd : (entry == "." || entry == "..") = true
      · rcases Bool.or_eq_true_iff.mp hd with h | h <;> simp [h]
      · rw [Bool.or_eq_true_iff] at hd
        push_neg at hd
        have h1 : (entry == ".") = false := Bool.eq_false_iff.mpr hd.1
        have h2 : (entry == "..") = false := Bool.eq_false_iff.mpr hd.2
        have h3 : (entry == "mnt") = false := Bool.eq_false_iff.mpr hm
        simp only [h1, h2, h3, Bool.or_self, Bool.false_or, Bool.or_false]
        cases node with
        | file m => simp [pruneMnt]
        | dir es2 =>
          simp only [pruneMnt]
          simp only [Bool.false_eq_true, if_false]
          exact listFiles_pruneMnt (p ++ "/" ++ entry) (FSNode.dir es2)

end

mutual

/-- Pruning every "mnt" entry does not change the part_000 VFS snapshot
either. -/
theorem getVFS_pruneMnt : ∀ (p : String) (t : FSNode),
    getVFSState0 p (pruneMnt t) = getVFSState0 p t
  | _, FSNode.file _ => by simp [pruneMnt, getVFSState0]
  | p, FSNode.dir es => by
    simp only [pruneMnt, getVFSState0]
    exact vfsEntries_pruneMnt p es

/-- Entry-list version of `getVFS_pruneMnt`. -/
theorem vfsEntries_pruneMnt : ∀ (p : String) (es : List (String × FSNode)),
    vfsEntries0 p (pruneEntries es) = vfsEntries0 p es
  | _, [] => by simp [pruneEntries]
  | p, (entry, node) :: rest => by
    by_cases hm : (entry == "mnt") = true
    · rw [show pruneEntries ((entry, node) :: rest) = pruneEntries rest from by
        simp [pruneEntries, hm]]
      rw [vfsEntries_pruneMnt p rest]
      simp [vfsEntries0, hm]
    · rw [show pruneEntries ((entry, node) :: rest) =
          (entry, pruneMnt node) :: pruneEntries rest from by
        simp [pruneEntries, hm]]
      simp only [vfsEntries0]
      rw [vfsEntries_pruneMnt p rest]
      congr 1
      by_cases hd : (entry == "." || entry == "..") = true
      · rcases Bool.or_eq_true_iff.mp hd with h | h <;> simp [h]
      · rw [Bool.or_eq_true_iff] at hd
        push_neg at hd
        have h1 : (entry == ".") = false := Bool.eq_false_iff.mpr hd.1
        have h2 : (entry == "..") = false := Bool.eq_false_iff.mpr hd.2
        have h3 : (entry == "mnt") = false := Bool.eq_false_iff.mpr hm
        simp only [h1, h2, h3, Bool.or_self, Bool.false_or, Bool.or_false]
        cases node with
        | file m => simp [pruneMnt]
        | dir es2 =>
          simp only [pruneMnt]
          simp only [Bool.false_eq_true, if_false]
          exact getVFS_pruneMnt (p ++ "/" ++ entry) (FSNode.dir es2)

end

/-- Claim C10: in the part_000 variant, the recursive listing and hence
the VFS snapshot skip every directory entry named "mnt" at any depth
under the scanned root, not only the designated mount root: listing or
snapshotting a tree is the same as listing or snapshotting the tree with
every "mnt" entry removed, so a file inside any directory named "mnt"
is never reported as a produced file. -/
theorem C10_mnt_skipped_at_all_depths :
    ∀ (p : String) (t : FSNode),
      listFilesRecursive0 p t = listFilesRecursive0 p (pruneMnt t) ∧
      getVFSState0 p t = getVFSState0 p (pruneMnt t) := by
  intro p t
  exact ⟨(listFiles_pruneMnt p t).symm, (getVFS_pruneMnt p t).symm⟩

/-! ## Claims C2 and C3: the `seen` set of `_robust_serialize` is global

  `_robust_serialize` adds `id(obj)` to `seen` before the type branch and
  never removes it, so `seen` accumulates every visited identity for the
  whole traversal — it is not scoped to the ancestor path.  The two
  evaluations below exhibit the resulting divergences from the spec on
  the smallest possible inputs. -/

/-- Claim C2 (failing input): the Python value `outer = [x, x]` with
`x = []` — one shared empty list referenced twice, heap
`0 ↦ [1, 1], 1 ↦ []`.  The second occurrence of `x` is not an ancestor
of itself (`x` has no children at all, first conjunct), yet the
serializer renders it as a `circular_reference` marker: shared
substructure is not serialized normally at each occurrence. -/
theorem C2_shared_substructure_flagged :
    heapLookup [(0, PyObj.pylist [1, 1]), (1, PyObj.pylist [])] 1 =
      some (PyObj.pylist []) ∧
    serialize_py [(0, PyObj.pylist [1, 1]), (1, PyObj.pylist [])] 0 =
      some (JVal.arr [JVal.arr [],
        JVal.circular (reprOf [(0, PyObj.pylist [1, 1]), (1, PyObj.pylist [])] 1)]) :=
  ⟨rfl, rfl⟩

/-- Claim C3 (failing input): the Python value `[None, None]` — in
CPython both elements are the very same `None` object, heap
`0 ↦ [1, 1], 1 ↦ None`.  The first occurrence of the primitive passes
through unchanged, but the second is rendered as a `circular_reference`
marker instead of `null`, because the primitive's identity was added to
the shared `seen` set at its first occurrence. -/
theorem C3_repeated_primitive_marked :
    serialize_py [(0, PyObj.pylist [1, 1]), (1, PyObj.prim Prim.pnone)] 0 =
      some (JVal.arr [JVal.null, JVal.circular ("None")]) := rfl

/-! ## Claim C7: part_000 puts the submitted source in `error_code` -/

/-- Claim C7 (failing input): running `execute_python` with
`code = "print(1)"` in the part_000 variant, with the engine resolving
normally (value `1`, no new files).  The resolved structured content
carries `error_code = "print(1)"` — the submitted source string, which
is none of TIMEOUT / PERMISSION_DENIED / PYTHON_EXCEPTION / UNKNOWN
(second conjunct), because the success branch returns
`error_code: code`. -/
theorem C7_error_code_out_of_enum :
    (executePython_p0
        { vfsBefore := [], vfsAfter := [], autoLoadError := none
          run := RunResult.val (JVal.num 1), settlesBeforeTimeout := true }
        { code := "print(1)", timeout := none, auto_load_packages := false }).outcome =
      ExecOutcome0.resolved
        { is_success := some true, result := some (JVal.num 1), files := some []
          error := some (""), error_code := some ("print(1)") } false ∧
    ("print(1)" ∉
      (["TIMEOUT", "PERMISSION_DENIED", "PYTHON_EXCEPTION", "UNKNOWN"] : List String)) :=
  ⟨rfl, by decide⟩

/-! ## Claim C1: no capability check guards the auto-load -/

/-- Claim C1 (failing input): a `configure` call applying
`disable_runtime_packages = true`, followed by `execute_python` with
`auto_load_packages = true` in the part_001 variant, the engine's load
and run resolving.  The configure call succeeds and afterwards the
ledger reports runtime package loading disabled (first two conjuncts) —
yet the execute handler still invokes `loadPackagesFromImports` (it
never calls `readPackagePermissions`; its model takes no `Session` at
all) and the call resolves with `is_success = true` and no
`error_code`, not with `PERMISSION_DENIED` (last two conjuncts). -/
theorem C1_no_permission_gate :
    (configureSandboxTool { cacheDirSet := true, netGranted := true, cacheWriteGranted := true }
        { packages := [], disable_net := false, disable_runtime_packages := true }
        { stepsError := none, loadError := none }).1 = ConfigResult.ok ∧
    (readPackagePermissions
      (configureSandboxTool { cacheDirSet := true, netGranted := true, cacheWriteGranted := true }
          { packages := [], disable_net := false, disable_runtime_packages := true }
          { stepsError := none, loadError := none }).2).isRuntimePackagesDisabled = true ∧
    (executePython_p1
        { vfsBefore := [], vfsAfter := [], autoLoadError := none
          run := RunResult.val (JVal.num 7), settlesBeforeTimeout := true }
        { code := "import numpy", timeout := none, auto_load_packages := true }).loadInvoked =
      true ∧
    (executePython_p1
        { vfsBefore := [], vfsAfter := [], autoLoadError := none
          run := RunResult.val (JVal.num 7), settlesBeforeTimeout := true }
        { code := "import numpy", timeout := none, auto_load_packages := true }).outcome =
      ExecOutcome1.resolved
        { is_success := some true, result := some (JVal.num 7), files := some []
          error := none, error_code := none } false :=
  ⟨rfl, rfl, rfl, rfl⟩

/-! ## Claim C5: the capability ratchet -/

/-- One `configure` call never re-grants net access. -/
theorem configure_net_mono (s : Session) (a : ConfigArgs) (env : ConfigureEnv) :
    s.netGranted = false → (configureSandboxTool s a env).2.netGranted = false := by
  intro h
  unfold configureSandboxTool
  by_cases hn : a.disable_net <;> by_cases hp : a.disable_runtime_packages <;>
    simp [hn, hp, h]

/-- One `configure` call never re-grants cache-write access. -/
theorem configure_cacheWrite_mono (s : Session) (a : ConfigArgs) (env : ConfigureEnv) :
    s.cacheWriteGranted = false →
      (configureSandboxTool s a env).2.cacheWriteGranted = false := by
  intro h
  unfold configureSandboxTool
  by_cases hn : a.disable_net <;> by_cases hp : a.disable_runtime_packages <;>
    simp [hn, hp, h]

/-- No sequence of `configure` calls re-grants net access. -/
theorem runConfigures_net_mono :
    ∀ (calls : List (ConfigArgs × ConfigureEnv)) (s : Session),
      s.netGranted = false → (runConfigures s calls).netGranted = false := by
  intro calls
  induction calls with
  | nil => intro s h; exact h
  | cons c rest ih =>
    intro s h
    exact ih _ (configure_net_mono s c.1 c.2 h)

/-- No sequence of `configure` calls re-grants cache-write access. -/
theorem runConfigures_cacheWrite_mono :
    ∀ (calls : List (ConfigArgs × ConfigureEnv)) (s : Session),
      s.cacheWriteGranted = false → (runConfigures s calls).cacheWriteGranted = false := by
  intro calls
  induction calls with
  | nil => intro s h; exact h
  | cons c rest ih =>
    intro s h
    exact ih _ (configure_cacheWrite_mono s c.1 c.2 h)

/-- Claim C5: the `disable_net` / `disable_runtime_packages` revocations
are applied in the `finally` block of `configure`, so they take effect
for every body outcome `env` — including failing ones (first two
conjuncts, universally quantified over the oracle); the two capability
flags never go from revoked back to granted in one call (middle
conjuncts); and once a flag is revoked, after any sequence of further
`configure` calls the corresponding permission query still reports
denied (last two conjuncts). -/
theorem C5_capability_ratchet :
    ∀ (s : Session) (a : ConfigArgs) (env : ConfigureEnv)
      (calls : List (ConfigArgs × ConfigureEnv)),
      (a.disable_net = true → (configureSandboxTool s a env).2.netGranted = false) ∧
      (a.disable_runtime_packages = true →
        (configureSandboxTool s a env).2.cacheWriteGranted = false) ∧
      ((configureSandboxTool s a env).2.netGranted = true → s.netGranted = true) ∧
      ((configureSandboxTool s a env).2.cacheWriteGranted = true →
        s.cacheWriteGranted = true) ∧
      (s.netGranted = false →
        (readPackagePermissions (runConfigures s calls)).isNetworkDisabled = true) ∧
      (s.cacheWriteGranted = false →
        (readPackagePermissions (runConfigures s calls)).isRuntimePackagesDisabled = true) := by
  intro s a env calls
  refine ⟨?_, ?_, ?_, ?_, ?_, ?_⟩
  · intro h
    unfold configureSandboxTool
    by_cases hp : a.disable_runtime_packages <;> simp [h, hp]
  · intro h
    unfold configureSandboxTool
    by_cases hn : a.disable_net <;> simp [h, hn]
  · intro h
    by_contra hs
    have h0 : s.netGranted = false := Bool.eq_false_iff.mpr hs
    rw [configure_net_mono s a env h0] at h
    cases h
  · intro h
    by_contra hs
    have h0 : s.cacheWriteGranted = false := Bool.eq_false_iff.mpr hs
    rw [configure_cacheWrite_mono s a env h0] at h
    cases h
  · intro h
    unfold readPackagePermissions
    rw [runConfigures_net_mono calls s h]
    rfl
  · intro h
    unfold readPackagePermissions
    rw [runConfigures_cacheWrite_mono calls s h]
    simp

/-- Witness for C5 at concrete inputs: revoking both capabilities in a
call whose package step would have failed anyway still clears the net
flag, and a later configure call still sees runtime packages denied. -/
theorem C5_capability_ratchet_witness :
    (configureSandboxTool { cacheDirSet := true, netGranted := true, cacheWriteGranted := true }
        { packages := ["numpy"], disable_net := true, disable_runtime_packages := true }
        { stepsError := some ("mount failed"), loadError := none }).2.netGranted = false ∧
    (readPackagePermissions
      (runConfigures { cacheDirSet := true, netGranted := true, cacheWriteGranted := false }
        [({ packages := [], disable_net := false, disable_runtime_packages := false },
          { stepsError := none, loadError := none })])).isRuntimePackagesDisabled = true :=
  ⟨(C5_capability_ratchet
      { cacheDirSet := true, netGranted := true, cacheWriteGranted := true }
      { packages := ["numpy"], disable_net := true, disable_runtime_packages := true }
      { stepsError := some ("mount failed"), loadError := none } []).1 rfl,
   (C5_capability_ratchet
      { cacheDirSet := true, netGranted := true, cacheWriteGranted := false }
      { packages := [], disable_net := false, disable_runtime_packages := false }
      { stepsError := none, loadError := none }
      [({ packages := [], disable_net := false, disable_runtime_packages := false },
        { stepsError := none, loadError := none })]).2.2.2.2.2 rfl⟩

/-! ## String lemmas for the timeout classification

  `formatError` sees the message
  `"Execution timed out after " ++ toString t ++ " seconds"` for an
  arbitrary timeout `t`; classifying it requires that the message does
  contain "Execution timed out" and cannot contain "Permission denied"
  (the rendered number contributes only digits and a minus sign, and the
  literal parts contain no capital P). -/

/-- A list is a `seqPrefixOf` of itself followed by anything. -/
theorem seqPrefixOf_append_self : ∀ (l r : List Char), seqPrefixOf l (l ++ r) = true := by
  intro l
  induction l with
  | nil => intro r; rfl
  | cons a as ih => intro r; simp [seqPrefixOf, ih]

/-- A pattern occurs in any list it starts. -/
theorem containsSeq_append_self : ∀ (pat r : List Char),
    containsSeq pat (pat ++ r) = true := by
  intro pat r
  have h := seqPrefixOf_append_self pat r
  cases hs : pat ++ r with
  | nil =>
    cases pat with
    | nil => rfl
    | cons a as => simp at hs
  | cons c rest =>
    rw [hs] at h
    simp [containsSeq, h]

/-- Every character of a matched prefix pattern occurs in the searched
list. -/
theorem seqPrefixOf_mem : ∀ (pat s : List Char), seqPrefixOf pat s = true →
    ∀ c ∈ pat, c ∈ s := by
  intro pat
  induction pat with
  | nil => intro s _ c hc; cases hc
  | cons a as ih =>
    intro s hp c hc
    cases s with
    | nil => simp [seqPrefixOf] at hp
    | cons b bs =>
      rw [seqPrefixOf, Bool.and_eq_true] at hp
      rcases List.mem_cons.mp hc with h | h
      · subst h
        exact List.mem_cons.mpr (Or.inl (eq_of_beq hp.1))
      · exact List.mem_cons_of_mem b (ih bs hp.2 c h)

/-- Every character of a matched substring pattern occurs in the
searched list. -/
theorem containsSeq_mem : ∀ (pat s : List Char), containsSeq pat s = true →
    ∀ c ∈ pat, c ∈ s := by
  intro pat s
  induction s with
  | nil =>
    intro h c hc
    cases pat with
    | nil => cases hc
    | cons a as => simp [containsSeq, seqPrefixOf] at h
  | cons b bs ih =>
    intro h c hc
    rw [containsSeq, Bool.or_eq_true] at h
    rcases h with h | h
    · exact seqPrefixOf_mem pat _ h c hc
    · exact List.mem_cons_of_mem b (ih h c hc)

/-- Digit values below ten render to digit characters. -/
theorem digitChar_isDigit : ∀ (m : Nat), m < 10 → (Nat.digitChar m).isDigit = true := by
  intro m hm
  interval_cases m <;> decide

/-- Every character `Nat.toDigitsCore` emits on base 10 is a digit. -/
theorem toDigitsCore_isDigit : ∀ (fuel n : Nat) (acc : List Char),
    (∀ c ∈ acc, c.isDigit = true) →
    ∀ c ∈ Nat.toDigitsCore 10 fuel n acc, c.isDigit = true := by
  intro fuel
  induction fuel with
  | zero => intro n acc hacc c hc; exact hacc c hc
  | succ fuel ih =>
    intro n acc hacc c hc
    have hd : (Nat.digitChar (n % 10)).isDigit = true :=
      digitChar_isDigit _ (Nat.mod_lt _ (by norm_num))
    have hcons : ∀ x ∈ Nat.digitChar (n % 10) :: acc, x.isDigit = true := by
      intro x hx
      rcases List.mem_cons.mp hx with h | h
      · subst h; exact hd
      · exact hacc x h
    rw [Nat.toDigitsCore] at hc
    by_cases h0 : n / 10 = 0
    · rw [if_pos h0] at hc
      exact hcons c hc
    · rw [if_neg h0] at hc
      exact ih (n / 10) _ hcons c hc

/-- Every character of `Nat.repr` is a digit. -/
theorem natRepr_isDigit : ∀ (n : Nat) (c : Char), c ∈ (Nat.repr n).data →
    c.isDigit = true := by
  intro n c hc
  rw [Nat.repr, Nat.toDigits] at hc
  exact toDigitsCore_isDigit (n + 1) n [] (by intro x hx; cases hx) c hc

/-- Character data of a string append is the append of the data. -/
theorem strData_append : ∀ (s r : String), (s ++ r).data = s.data ++ r.data := by
  intro s r
  cases s
  cases r
  rfl

/-- Every character of the decimal rendering of an `Int` is a digit or a
minus sign. -/
theorem intToString_chars : ∀ (t : Int) (c : Char), c ∈ (toString t).data →
    c.isDigit = true ∨ c = '-' := by
  intro t c hc
  cases t with
  | ofNat m =>
    exact Or.inl (natRepr_isDigit m c hc)
  | negSucc m =>
    have : (toString (Int.negSucc m)).data = '-' :: (Nat.repr (m + 1)).data := by
      show (("-" : String) ++ toString (m + 1)).data = _
      rw [strData_append]
      rfl
    rw [this] at hc
    rcases List.mem_cons.mp hc with h | h
    · exact Or.inr h
    · exact Or.inl (natRepr_isDigit (m + 1) c h)

/-- The capital P never occurs in the timeout message. -/
theorem timeoutMsg_no_P : ∀ (t : Int), ('P' ∈ (timeoutMsg t).data) → False := by
  intro t hP
  unfold timeoutMsg at hP
  rw [strData_append, strData_append] at hP
  rcases List.mem_append.mp hP with h | h
  · rcases List.mem_append.mp h with h | h
    · revert h; decide
    · rcases intToString_chars t 'P' h with h | h
      · simp at h
      · cases h
  · revert h; decide

/-- The timer's message always classifies as a TIMEOUT: it cannot
contain "Permission denied" (no capital P anywhere in it) and it starts
with "Execution timed out". -/
theorem formatError_timeoutMsg : ∀ (t : Int),
    formatError { isDenoPermissionDenied := false, msg := timeoutMsg t } =
      (ErrorCode.TIMEOUT, timeoutMsg t) := by
  intro t
  have hnoP : strContains (timeoutMsg t) ("Permission denied") = false := by
    rw [Bool.eq_false_iff]
    intro h
    exact timeoutMsg_no_P t
      (containsSeq_mem _ _ h 'P' (by decide))
  have hyes : strContains (timeoutMsg t) ("Execution timed out") = true := by
    unfold strContains timeoutMsg
    rw [strData_append, strData_append]
    have hsplit : ("Execution timed out after " : String).data =
        ("Execution timed out" : String).data ++ (" after " : String).data := by decide
    rw [hsplit, List.append_assoc, List.append_assoc]
    exact containsSeq_append_self _ _
  unfold formatError
  rw [hnoP, hyes]
  rfl

/-! ## Claim C4: timeout handling -/

/-- Modelled from the spec: claim C4 as stated, instantiated to the
part_000 variant — on a timed-out call the controller stores a
termination request into the interrupt signal and the call resolves
with `is_success = false` and `error_code = TIMEOUT` (part_000's
`error_code` field, when at all present, is a string). -/
def timeoutClaim0 (E : Engine1) (a : ExecArgs) : Prop :=
  (executePython_p0 E a).interruptStored = true ∧
  ∃ (sc : SC0) (ie : Bool),
    (executePython_p0 E a).outcome = ExecOutcome0.resolved sc ie ∧
    sc.is_success = some false ∧ sc.error_code = some ("TIMEOUT")

/-- Claim C4 fails on the part_000 variant: a call with `timeout = 1`
whose script never settles does store the termination request, but its
catch branch resolves with only an error message — no `is_success`, no
`error_code` — so the claim as stated is false there. -/
theorem C4_part000_counterexample :
    ¬ timeoutClaim0
        { vfsBefore := [], vfsAfter := [], autoLoadError := none
          run := RunResult.diverges, settlesBeforeTimeout := false }
        { code := "while True: pass", timeout := some 1, auto_load_packages := false } := by
  intro h
  obtain ⟨hstore, sc, ie, hout, hsucc, hcode⟩ := h
  have hred :
      (executePython_p0
        { vfsBefore := [], vfsAfter := [], autoLoadError := none
          run := RunResult.diverges, settlesBeforeTimeout := false }
        { code := "while True: pass", timeout := some 1
          auto_load_packages := false }).outcome =
      ExecOutcome0.resolved
        { is_success := none, result := none, files := none
          error := some (timeoutMsg 1), error_code := none } true := rfl
  rw [hred] at hout
  injection hout with hsc hie
  rw [← hsc] at hcode
  simp at hcode

/-- Claim C4 (amended, part_001): for every call with a positive timeout
whose auto-load step does not fail and whose run does not settle before
the timer fires, the part_001 handler stores the termination request
`2` into the interrupt buffer and resolves with `is_success = false`,
the timeout message, and `error_code = TIMEOUT`. -/
theorem C4_timeout_part001 :
    ∀ (E : Engine1) (a : ExecArgs) (t : Int),
      a.timeout = some t → 0 < t →
      (if a.auto_load_packages then E.autoLoadError else none) = none →
      runNotDoneInTime E = true →
      (executePython_p1 E a).interruptStored = true ∧
      (executePython_p1 E a).outcome =
        ExecOutcome1.resolved
          { is_success := some false, result := none, files := none
            error := some (timeoutMsg t), error_code := some ErrorCode.TIMEOUT } true := by
  intro E a t ht hpos hload hrun
  have hcond : (decide (0 < t) && runNotDoneInTime E) = true := by
    rw [hrun, decide_eq_true hpos]
    rfl
  constructor
  · unfold executePython_p1
    simp only [hload, ht, hcond, if_true]
  · unfold executePython_p1
    simp only [hload, ht, hcond, if_true]
    rw [formatError_timeoutMsg t]
    rfl

/-- Witness for the amended C4 at a concrete input: a one-second timeout
over a never-settling run. -/
theorem C4_timeout_part001_witness :
    (executePython_p1
        { vfsBefore := [], vfsAfter := [], autoLoadError := none
          run := RunResult.diverges, settlesBeforeTimeout := false }
        { code := "while True: pass", timeout := some 1
          auto_load_packages := false }).interruptStored = true ∧
    (executePython_p1
        { vfsBefore := [], vfsAfter := [], autoLoadError := none
          run := RunResult.diverges, settlesBeforeTimeout := false }
        { code := "while True: pass", timeout := some 1
          auto_load_packages := false }).outcome =
      ExecOutcome1.resolved
        { is_success := some false, result := none, files := none
          error := some (timeoutMsg 1), error_code := some ErrorCode.TIMEOUT } true :=
  C4_timeout_part001
    { vfsBefore := [], vfsAfter := [], autoLoadError := none
      run := RunResult.diverges, settlesBeforeTimeout := false }
    { code := "while True: pass", timeout := some 1, auto_load_packages := false }
    1 rfl (by decide) rfl rfl

/-! ## Claim C9: the serializer terminates on every heap

  The recursion budget: each visit that recurses first adds a fresh
  heap identity to the global `seen` set, so the number of heap
  identities not yet seen strictly decreases along every descent, and
  `heapFuel` — one more than the number of distinct identities — never
  runs out. -/

/-- The number of distinct heap identities not yet in `seen`. -/
def unseenCount (H : Heap) (seen : List ObjId) : Nat :=
  (((H.map Prod.fst).dedup).filter (fun i => decide (i ∉ seen))).length

/-- Growing `seen` cannot increase the unseen count. -/
theorem unseenCount_antitone (H : Heap) (s s2 : List ObjId) (h : s ⊆ s2) :
    unseenCount H s2 ≤ unseenCount H s := by
  unfold unseenCount
  apply List.Sublist.length_le
  apply List.monotone_filter_right
  intro a ha
  simp only [decide_eq_true_eq] at ha ⊢
  intro hmem
  exact ha (h hmem)

/-- Adding a fresh heap identity to `seen` strictly decreases the unseen
count. -/
theorem unseenCount_cons_lt (H : Heap) (i : ObjId) (seen : List ObjId)
    (hmem : i ∈ (H.map Prod.fst).dedup) (hni : i ∉ seen) :
    unseenCount H (i :: seen) < unseenCount H seen := by
  unfold unseenCount
  have hsub : List.Sublist
      (((H.map Prod.fst).dedup).filter (fun j => decide (j ∉ i :: seen)))
      (((H.map Prod.fst).dedup).filter (fun j => decide (j ∉ seen))) := by
    apply List.monotone_filter_right
    intro a ha
    simp only [decide_eq_true_eq] at ha ⊢
    intro hmem2
    exact ha (List.mem_cons_of_mem i hmem2)
  refine Nat.lt_of_le_of_ne hsub.length_le ?_
  intro heq
  have heqlist := hsub.eq_of_length heq
  have hiR : i ∈ ((H.map Prod.fst).dedup).filter (fun j => decide (j ∉ seen)) :=
    List.mem_filter.mpr ⟨hmem, by simp [hni]⟩
  rw [← heqlist] at hiR
  have hiL := (List.mem_filter.mp hiR).2
  simp at hiL

/-- A resolvable identity is among the distinct heap identities. -/
theorem mem_domain_of_heapLookup (H : Heap) (i : ObjId) (o : PyObj)
    (h : heapLookup H i = some o) : i ∈ (H.map Prod.fst).dedup := by
  unfold heapLookup at h
  rw [Option.map_eq_some'] at h
  obtain ⟨e, hfind, _⟩ := h
  have hmem := List.mem_of_find?_eq_some hfind
  have hpred := List.find?_some hfind
  rw [List.mem_dedup, List.mem_map]
  exact ⟨e, hmem, eq_of_beq hpred⟩

/-- The state a sequence serialization returns extends the state it was
started from (elements are only ever added to `seen`). -/
theorem serSeq_sub (f : ObjId → List ObjId → Option (JVal × List ObjId))
    (hf : ∀ c s r, f c s = some r → s ⊆ r.2) :
    ∀ (cs : List ObjId) (s : List ObjId) (r : List JVal × List ObjId),
      serSeq f cs s = some r → s ⊆ r.2 := by
  intro cs
  induction cs with
  | nil =>
    intro s r h
    injection h with h
    rw [← h]
    exact List.Subset.refl s
  | cons c cs ih =>
    intro s r h
    rw [serSeq, Option.bind_eq_some] at h
    obtain ⟨r1, h1, h2⟩ := h
    rw [Option.bind_eq_some] at h2
    obtain ⟨r2, h3, h4⟩ := h2
    injection h4 with h4
    rw [← h4]
    exact (hf c s r1 h1).trans (ih r1.2 r2 h3)

/-- Analogue of `serSeq_sub` for mapping fields. -/
theorem serFields_sub (f : ObjId → List ObjId → Option (JVal × List ObjId))
    (hf : ∀ c s r, f c s = some r → s ⊆ r.2) :
    ∀ (kvs : List (String × ObjId)) (s : List ObjId)
      (r : List (String × JVal) × List ObjId),
      serFields f kvs s = some r → s ⊆ r.2 := by
  intro kvs
  induction kvs with
  | nil =>
    intro s r h
    injection h with h
    rw [← h]
    exact List.Subset.refl s
  | cons kv rest ih =>
    intro s r h
    rw [serFields, Option.bind_eq_some] at h
    obtain ⟨r1, h1, h2⟩ := h
    rw [Option.bind_eq_some] at h2
    obtain ⟨r2, h3, h4⟩ := h2
    injection h4 with h4
    rw [← h4]
    exact (hf kv.2 s r1 h1).trans (ih r1.2 r2 h3)

/-- A sequence serialization succeeds whenever the item serializer
succeeds from every state reachable along the threading. -/
theorem serSeq_isSome (f : ObjId → List ObjId → Option (JVal × List ObjId))
    (P : List ObjId → Prop)
    (hf : ∀ c s, P s → (f c s).isSome = true)
    (hsub : ∀ c s r, f c s = some r → s ⊆ r.2)
    (hP : ∀ s s2, s ⊆ s2 → P s → P s2) :
    ∀ (cs : List ObjId) (s : List ObjId), P s → (serSeq f cs s).isSome = true := by
  intro cs
  induction cs with
  | nil => intro s _; rfl
  | cons c cs ih =>
    intro s hs
    obtain ⟨r1, hr1⟩ := Option.isSome_iff_exists.mp (hf c s hs)
    obtain ⟨r2, hr2⟩ := Option.isSome_iff_exists.mp
      (ih r1.2 (hP s r1.2 (hsub c s r1 hr1) hs))
    rw [serSeq]
    simp [hr1, hr2]

/-- Analogue of `serSeq_isSome` for mapping fields. -/
theorem serFields_isSome (f : ObjId → List ObjId → Option (JVal × List ObjId))
    (P : List ObjId → Prop)
    (hf : ∀ c s, P s → (f c s).isSome = true)
    (hsub : ∀ c s r, f c s = some r → s ⊆ r.2)
    (hP : ∀ s s2, s ⊆ s2 → P s → P s2) :
    ∀ (kvs : List (String × ObjId)) (s : List ObjId), P s →
      (serFields f kvs s).isSome = true := by
  intro kvs
  induction kvs with
  | nil => intro s _; rfl
  | cons kv rest ih =>
    intro s hs
    obtain ⟨r1, hr1⟩ := Option.isSome_iff_exists.mp (hf kv.2 s hs)
    obtain ⟨r2, hr2⟩ := Option.isSome_iff_exists.mp
      (ih r1.2 (hP s r1.2 (hsub kv.2 s r1 hr1) hs))
    rw [serFields]
    simp [hr1, hr2]

/-- Monotonicity: `_robust_serialize` only ever adds to the shared `seen` set: the
returned state extends the starting state.  (This is the global-set
behaviour: a path-scoped implementation would shrink the set again on
the way out.) -/
theorem robust_serialize_sub :
    ∀ (fuel : Nat) (H : Heap) (i : ObjId) (seen : List ObjId) (r : JVal × List ObjId),
      robust_serialize H fuel i seen = some r → seen ⊆ r.2 := by
  intro fuel
  induction fuel with
  | zero =>
    intro H i seen r h
    simp [robust_serialize] at h
  | succ fuel ih =>
    intro H i seen r h
    rw [robust_serialize] at h
    by_cases hseen : i ∈ seen
    · rw [if_pos hseen] at h
      injection h with h
      rw [← h]
      exact List.Subset.refl seen
    · rw [if_neg hseen] at h
      cases hl : heapLookup H i with
      | none =>
        simp only [hl] at h
        injection h with h
        rw [← h]
        exact List.subset_cons_self i seen
      | some o =>
        cases o with
        | prim p =>
          simp only [hl] at h
          injection h with h
          rw [← h]
          exact List.subset_cons_self i seen
        | pydate s =>
          simp only [hl] at h
          injection h with h
          rw [← h]
          exact List.subset_cons_self i seen
        | other rs =>
          simp only [hl] at h
          injection h with h
          rw [← h]
          exact List.subset_cons_self i seen
        | pylist cs =>
          simp only [hl, Option.map_eq_some'] at h
          obtain ⟨r2, hser, heq⟩ := h
          rw [← heq]
          exact (List.subset_cons_self i seen).trans
            (serSeq_sub _ (fun c s r h => ih H c s r h) cs (i :: seen) r2 hser)
        | pydict kvs =>
          simp only [hl, Option.map_eq_some'] at h
          obtain ⟨r2, hser, heq⟩ := h
          rw [← heq]
          exact (List.subset_cons_self i seen).trans
            (serFields_sub _ (fun c s r h => ih H c s r h) kvs (i :: seen) r2 hser)

/-- Sufficiency: `_robust_serialize` succeeds whenever the fuel exceeds the number of
distinct heap identities not yet seen. -/
theorem robust_serialize_isSome :
    ∀ (fuel : Nat) (H : Heap) (i : ObjId) (seen : List ObjId),
      unseenCount H seen < fuel → (robust_serialize H fuel i seen).isSome = true := by
  intro fuel
  induction fuel with
  | zero =>
    intro H i seen h
    exact absurd h (Nat.not_lt_zero _)
  | succ fuel ih =>
    intro H i seen hlt
    rw [robust_serialize]
    by_cases hseen : i ∈ seen
    · rw [if_pos hseen]
      rfl
    · rw [if_neg hseen]
      cases hl : heapLookup H i with
      | none => rfl
      | some o =>
        have hmem := mem_domain_of_heapLookup H i o hl
        have hcnt : unseenCount H (i :: seen) < fuel := by
          have hdrop := unseenCount_cons_lt H i seen hmem hseen
          omega
        cases o with
        | prim p => rfl
        | pydate s => rfl
        | other rs => rfl
        | pylist cs =>
          have hsome := serSeq_isSome (fun c s => robust_serialize H fuel c s)
            (fun s => unseenCount H s < fuel)
            (fun c s hP => ih H c s hP)
            (fun c s r hr => robust_serialize_sub fuel H c s r hr)
            (fun s s2 hss hP => Nat.lt_of_le_of_lt (unseenCount_antitone H s s2 hss) hP)
            cs (i :: seen) hcnt
          obtain ⟨r2, hr2⟩ := Option.isSome_iff_exists.mp hsome
          simp [hr2]
        | pydict kvs =>
          have hsome := serFields_isSome (fun c s => robust_serialize H fuel c s)
            (fun s => unseenCount H s < fuel)
            (fun c s hP => ih H c s hP)
            (fun c s r hr => robust_serialize_sub fuel H c s r hr)
            (fun s s2 hss hP => Nat.lt_of_le_of_lt (unseenCount_antitone H s s2 hss) hP)
            kvs (i :: seen) hcnt
          obtain ⟨r2, hr2⟩ := Option.isSome_iff_exists.mp hsome
          simp [hr2]

/-- Claim C9: for every input value — every heap and root identity,
including object graphs whose references cycle back through their own
ancestors — `serialize_py` terminates with a result tree.  In the
embedding the only failure channel is fuel exhaustion (standing for
nontermination), and the heap-size fuel never runs out; the function has
no raising branch: every object kind, resolvable or not, maps to some
output node. -/
theorem C9_serialize_total :
    ∀ (H : Heap) (root : ObjId), ∃ v, serialize_py H root = some v := by
  intro H root
  have hstart : unseenCount H [] < heapFuel H := by
    unfold unseenCount heapFuel
    have hall : ((H.map Prod.fst).dedup).filter (fun i => decide (i ∉ ([] : List ObjId))) =
        (H.map Prod.fst).dedup := by
      apply List.filter_eq_self.mpr
      intro a _
      simp
    rw [hall]
    omega
  obtain ⟨r, hr⟩ := Option.isSome_iff_exists.mp
    (robust_serialize_isSome (heapFuel H) H root [] hstart)
  exact ⟨r.1, by rw [serialize_py, hr]; rfl⟩
